import Mathlib

set_option maxHeartbeats 1000000
set_option maxRecDepth 100000

namespace Prior

/-- JavaScript runtime values as they occur in JSON-shaped payloads handled by
the Prior MCP adapter.  Numbers are modelled as integers (the payload fields the
claims depend on are ids, counters and flags); `undefined` models the JavaScript
value `undefined`, which is distinct from JSON `null`. -/
inductive JValue where
  | null : JValue
  | undefined : JValue
  | bool : Bool → JValue
  | num : Int → JValue
  | str : String → JValue
  | arr : List JValue → JValue
  | obj : List (String × JValue) → JValue

/-- JavaScript truthiness: `null`, `undefined`, `false`, `0` and `""` are falsy,
every other value (including empty arrays and empty objects) is truthy. -/
def truthy : JValue → Bool
  | .null => false
  | .undefined => false
  | .bool b => b
  | .num n => n ≠ 0
  | .str s => s ≠ ""
  | .arr _ => true
  | .obj _ => true

/-- Optional-chained property access `v?.key`: `undefined` for `null`,
`undefined` and primitives, the property value (or `undefined` when absent)
for objects.  Array values have no named `id`, `data` or `results`
properties, so the lookup also yields `undefined` there. -/
def jsGetProp (v : JValue) (key : String) : JValue :=
  match v with
  | .obj fields =>
    match fields.lookup key with
    | some w => w
    | none => .undefined
  | _ => .undefined

/-- The JavaScript `in` operator restricted to objects: property presence,
including properties whose stored value is `undefined`. -/
def jsHasOwn (v : JValue) (key : String) : Bool :=
  match v with
  | .obj fields => fields.any (fun p => p.1 = key)
  | _ => false

/-- The JavaScript expression `a || b` on values: `a` when truthy, else `b`. -/
def jsOrVal (a b : JValue) : JValue :=
  if truthy a then a else b

mutual

/-- String coercion `String(v)` as used by template literals and
`Array.prototype.join`: arrays join their elements with `","`, rendering
`null` and `undefined` elements as the empty string. -/
def jsToString : JValue → String
  | .null => "null"
  | .undefined => "undefined"
  | .bool b => if b then "true" else "false"
  | .num n => toString n
  | .str s => s
  | .arr l => String.intercalate "," (jsToStringItems l)
  | .obj _ => "[object Object]"

/-- Element-wise coercion used when an array is converted to a string. -/
def jsToStringItems : List JValue → List String
  | [] => []
  | v :: vs =>
    (match v with
     | .null => ""
     | .undefined => ""
     | w => jsToString w) :: jsToStringItems vs

end

/-- Lower-case hexadecimal digit. -/
def hexDigit (n : Nat) : Char :=
  if n < 10 then Char.ofNat (48 + n) else Char.ofNat (87 + n)

/-- Four-digit lower-case hexadecimal rendering used by `\uXXXX` escapes. -/
def hex4 (n : Nat) : String :=
  String.mk [hexDigit (n / 4096 % 16), hexDigit (n / 256 % 16),
             hexDigit (n / 16 % 16), hexDigit (n % 16)]

/-- `JSON.stringify` escaping of a single character inside a string literal. -/
def escapeJsonChar (c : Char) : String :=
  if c = Char.ofNat 34 then "\\\""
  else if c = Char.ofNat 92 then "\\\\"
  else if c = Char.ofNat 8 then "\\b"
  else if c = Char.ofNat 12 then "\\f"
  else if c = Char.ofNat 10 then "\\n"
  else if c = Char.ofNat 13 then "\\r"
  else if c = Char.ofNat 9 then "\\t"
  else if c.toNat < 32 then "\\u" ++ hex4 c.toNat
  else String.singleton c

/-- `JSON.stringify` quoting of a string value. -/
def quoteJson (s : String) : String :=
  "\"" ++ String.join (s.toList.map escapeJsonChar) ++ "\""

mutual

/-- `JSON.stringify(v, null, gap)` with the current indentation `indent`:
`none` models the JavaScript result `undefined` (top-level `undefined` is not
serializable).  With an empty gap the output is compact; with a non-empty gap
arrays and objects are laid out one element per line, exactly as V8 does. -/
def serialize (gap indent : String) : JValue → Option String
  | .undefined => none
  | .null => some "null"
  | .bool b => some (if b then "true" else "false")
  | .num n => some (toString n)
  | .str s => some (quoteJson s)
  | .arr l =>
    let indent2 := indent ++ gap
    let items := serializeItems gap indent2 l
    some (if items.isEmpty then "[]"
      else if gap = "" then "[" ++ String.intercalate "," items ++ "]"
      else "[\n" ++ indent2 ++ String.intercalate (",\n" ++ indent2) items
           ++ "\n" ++ indent ++ "]")
  | .obj fs =>
    let indent2 := indent ++ gap
    let mems := serializeMembers gap indent2 fs
    some (if mems.isEmpty then "\x7b\x7d"
      else if gap = "" then "\x7b" ++ String.intercalate "," mems ++ "\x7d"
      else "\x7b\n" ++ indent2 ++ String.intercalate (",\n" ++ indent2) mems
           ++ "\n" ++ indent ++ "\x7d")

/-- Array elements: an element that serializes to `undefined` is rendered
as `null`, as `JSON.stringify` does. -/
def serializeItems (gap indent : String) : List JValue → List String
  | [] => []
  | v :: vs => ((serialize gap indent v).getD "null") :: serializeItems gap indent vs

/-- Object members: a property whose value serializes to `undefined` is
omitted; with a non-empty gap the key/value separator is `": "`, else `":"`. -/
def serializeMembers (gap indent : String) : List (String × JValue) → List String
  | [] => []
  | (k, v) :: fs =>
    match serialize gap indent v with
    | some sv =>
      (quoteJson k ++ (if gap = "" then ":" else ": ") ++ sv)
        :: serializeMembers gap indent fs
    | none => serializeMembers gap indent fs

end

/-- `JSON.stringify(v)` (compact form, no indentation). -/
def jsonStringify (v : JValue) : Option String := serialize "" "" v

/-- `JSON.stringify(v, null, 2)` (pretty form, two-space indentation),
the rendering used by `formatResults`. -/
def jsonStringify2 (v : JValue) : Option String := serialize "  " "" v

/-- Outcome of a JavaScript function call returning a string:
a proper string, the value `undefined`, or a thrown exception. -/
inductive JsOut where
  | str : String → JsOut
  | undefined : JsOut
  | thrown : JsOut
  deriving DecidableEq

/-- The id gate of `formatResults` (utils.ts line 26): the `id` value of the first result must not be `null`, `undefined` or the empty string.  Any other
value (numbers, booleans, objects, non-empty strings) passes. -/
def usableId : JValue → Bool
  | .null => false
  | .undefined => false
  | .str s => s ≠ ""
  | _ => true

/-- utils.ts line 27: `results.map(r => r?.id || "").join(", ")` — every
falsy id (absent, `undefined`, `null`, `""`, `0`, `false`) renders as the
empty string; truthy ids are string-coerced by `join`. -/
def resultsIds (rs : List JValue) : String :=
  String.intercalate ", " (rs.map (fun r =>
    let i := jsGetProp r "id"
    if truthy i then jsToString i else ""))

/-- The feedback nudge appended by `formatResults` (utils.ts lines 28-32),
with the coerced top id `tid` and the joined id list `ids` spliced in. -/
def feedbackNudgeBlock (tid ids : String) : String :=
  "\n\n---\nYou already paid 1 credit for this search. Get it back — call prior_feedback with ONE of:\n" ++
  "  worked: prior_feedback(entryId=\"" ++ tid ++ "\", outcome=\"useful\")\n" ++
  "  didn\x27t work: prior_feedback(entryId=\"" ++ tid ++ "\", outcome=\"not_useful\", reason=\"describe why\")\n" ++
  "  wrong result: prior_feedback(entryId=\"" ++ tid ++ "\", outcome=\"irrelevant\")\n" ++
  "All result IDs: " ++ ids

/-- `formatResults` from src/utils.ts lines 14-36.
`json = JSON.stringify(data, null, 2)`; the envelope is unwrapped with
`(d?.data) || d`; the nudge is appended only when `results` is a non-empty
array whose first element passes `topResult && ("id" in topResult) && gate`.
The `in` operator throws a TypeError when its right operand is a truthy
primitive (a non-zero number, `true`, or a non-empty string), which the
`topResult &&` short-circuit does not protect against. -/
def formatResults (data : JValue) : JsOut :=
  match jsonStringify2 data with
  | none => JsOut.undefined
  | some json =>
    let inner := jsOrVal (jsGetProp data "data") data
    match jsGetProp inner "results" with
    | JValue.arr (top :: rest) =>
      if truthy top then
        match top with
        | JValue.obj _ =>
          let topId := jsGetProp top "id"
          if jsHasOwn top "id" && usableId topId then
            JsOut.str (json ++
              feedbackNudgeBlock (jsToString topId) (resultsIds (top :: rest)))
          else JsOut.str json
        | JValue.arr _ => JsOut.str json
        | _ => JsOut.thrown
      else JsOut.str json
    | _ => JsOut.str json

/-- The payloads for which `formatResults` reaches its plain
`return json` (no nudge, no exception): the unwrapped `results` is not a
non-empty array, or its first element is an array, a falsy value, or an
object failing the id gate. -/
def plainSerializationCase (p : JValue) : Bool :=
  match jsGetProp (jsOrVal (jsGetProp p "data") p) "results" with
  | JValue.arr (top :: _) =>
    (match top with
     | JValue.obj _ => !(jsHasOwn top "id" && usableId (jsGetProp top "id"))
     | JValue.arr _ => true
     | _ => !truthy top)
  | _ => true

/-- The plain serialization of a payload, as a call outcome: the pretty
rendering `JSON.stringify(p, null, 2)`, or `undefined` for an
unserializable payload. -/
def serOut (p : JValue) : JsOut :=
  match jsonStringify2 p with
  | none => JsOut.undefined
  | some j => JsOut.str j

/-- The id list as claim C1 words it: the empty string stands in only for a
missing id (absent, `undefined`, or `null`); any other id value is listed. -/
def claimIdsLineMissing (rs : List JValue) : String :=
  String.intercalate ", " (rs.map (fun r =>
    match jsGetProp r "id" with
    | .undefined => ""
    | .null => ""
    | i => jsToString i))

/-- Global replacement of a literal (non-empty) pattern, scanning left to
right without overlap: the semantics of JavaScript
`String.prototype.replace` with a `/literal/g` regex.  On a match the scan
resumes after the replaced occurrence. -/
def litReplace (pat rep : List Char) : List Char → List Char
  | [] => []
  | c :: cs =>
    if pat ≠ [] ∧ pat.isPrefixOf (c :: cs) then
      rep ++ litReplace pat rep ((c :: cs).drop pat.length)
    else
      c :: litReplace pat rep cs
termination_by l => l.length
decreasing_by
  · rename_i h
    simp only [List.length_drop, List.length_cons]
    cases pat with
    | nil => exact absurd rfl h.1
    | cons a as => simp; omega
  · simp

/-- The greedy body of the regex `\[PRIOR:CONTRIBUTE ([^\]]+)\]` after its
literal head: consume the maximal run of characters other than a closing
bracket, then the closing bracket; `none` when no closing bracket follows. -/
def takeAttrs : List Char → Option (List Char × List Char)
  | [] => none
  | c :: cs =>
    if c = ']' then some ([], cs)
    else
      match takeAttrs cs with
      | some (attrs, rest) => some (c :: attrs, rest)
      | none => none

/-- The literal head of the parameterized contribute token. -/
def contribMark : List Char := "[PRIOR:CONTRIBUTE ".toList

/-- The replacement produced for a parameterized contribute token, with the
captured attribute text spliced in. -/
def contribHint (attrs : List Char) : List Char :=
  "`prior_contribute(".toList ++ attrs ++ ")`".toList

/-- The backtick character (code point 96), the first character of every
replacement hint. -/
def btChar : Char := Char.ofNat 96

/-- Global replacement for `/\[PRIOR:CONTRIBUTE ([^\]]+)\]/g` (tools.ts
lines 31-33): at each position, match the literal head, then at least one
non-bracket character up to the first closing bracket; on a match, emit the
hint and resume after the match, otherwise advance one character.  The
resume point is expressed as a drop count on the tail: when
`takeAttrs` succeeds, the remainder after the consumed
`[PRIOR:CONTRIBUTE <attrs>]` is `cs.drop (contribMark.length +
attrs.length)` (the theorem `takeAttrs_resume` proves this equals the
`rest` component returned by `takeAttrs`). -/
def replaceContribParam : List Char → List Char
  | [] => []
  | c :: cs =>
    if contribMark.isPrefixOf (c :: cs) then
      match takeAttrs ((c :: cs).drop contribMark.length) with
      | some (attrs, _) =>
        if attrs ≠ [] then
          contribHint attrs ++
            replaceContribParam (cs.drop (contribMark.length + attrs.length))
        else c :: replaceContribParam cs
      | none => c :: replaceContribParam cs
    else c :: replaceContribParam cs
termination_by l => l.length
decreasing_by
  · simp only [List.length_drop, List.length_cons]
    omega
  · simp
  · simp

/-- The fixed token `[PRIOR:CONTRIBUTE]` and its hint (tools.ts line 24). -/
def tokContribute : List Char := "[PRIOR:CONTRIBUTE]".toList

/-- Hint for the generic contribute token. -/
def repContribute : List Char := "`prior_contribute(...)`".toList

/-- The fixed token `[PRIOR:FEEDBACK:useful]` (tools.ts line 25). -/
def tokFbUseful : List Char := "[PRIOR:FEEDBACK:useful]".toList

/-- Hint for the useful-outcome feedback token. -/
def repFbUseful : List Char :=
  "`prior_feedback(entryId: \"...\", outcome: \"useful\")`".toList

/-- The fixed token `[PRIOR:FEEDBACK:not_useful]` (tools.ts line 26). -/
def tokFbNotUseful : List Char := "[PRIOR:FEEDBACK:not_useful]".toList

/-- Hint for the not-useful-outcome feedback token. -/
def repFbNotUseful : List Char :=
  "`prior_feedback(entryId: \"...\", outcome: \"not_useful\", reason: \"...\")`".toList

/-- The fixed token `[PRIOR:FEEDBACK:irrelevant]` (tools.ts line 27). -/
def tokFbIrrelevant : List Char := "[PRIOR:FEEDBACK:irrelevant]".toList

/-- Hint for the irrelevant-outcome feedback token. -/
def repFbIrrelevant : List Char :=
  "`prior_feedback(entryId: \"...\", outcome: \"irrelevant\")`".toList

/-- The fixed token `[PRIOR:FEEDBACK]` (tools.ts line 28). -/
def tokFeedback : List Char := "[PRIOR:FEEDBACK]".toList

/-- Hint for the generic feedback token. -/
def repFeedback : List Char := "`prior_feedback(...)`".toList

/-- The fixed token `[PRIOR:STATUS]` (tools.ts line 29). -/
def tokStatus : List Char := "[PRIOR:STATUS]".toList

/-- Hint for the status token. -/
def repStatus : List Char := "`prior_status()`".toList

/-- `expandNudgeTokens` from src/tools.ts lines 22-34, on character lists:
six global literal replacements in source order, then the parameterized
contribute replacement. -/
def expandNudgeTokensL (l : List Char) : List Char :=
  let s1 := litReplace tokContribute repContribute l
  let s2 := litReplace tokFbUseful repFbUseful s1
  let s3 := litReplace tokFbNotUseful repFbNotUseful s2
  let s4 := litReplace tokFbIrrelevant repFbIrrelevant s3
  let s5 := litReplace tokFeedback repFeedback s4
  let s6 := litReplace tokStatus repStatus s5
  replaceContribParam s6

/-- `expandNudgeTokens` on strings. -/
def expandNudgeTokens (message : String) : String :=
  String.mk (expandNudgeTokensL message.toList)

/-- Whether a literal pattern occurs anywhere in a character list. -/
def containsSeq (pat : List Char) : List Char → Bool
  | [] => pat.isPrefixOf []
  | c :: cs => pat.isPrefixOf (c :: cs) || containsSeq pat cs

/-- Whether a parameterized contribute token begins at this position. -/
def paramMatchAt (l : List Char) : Bool :=
  contribMark.isPrefixOf l &&
    (match takeAttrs (l.drop contribMark.length) with
     | some (attrs, _) => attrs ≠ []
     | none => false)

/-- Whether text matching `\[PRIOR:CONTRIBUTE ([^\]]+)\]` occurs anywhere. -/
def containsParamTok : List Char → Bool
  | [] => false
  | c :: cs => paramMatchAt (c :: cs) || containsParamTok cs

/-- The six fixed vocabulary tokens, in replacement order. -/
def fixedTokens : List (List Char) :=
  [tokContribute, tokFbUseful, tokFbNotUseful, tokFbIrrelevant,
   tokFeedback, tokStatus]

/-- A message containing no vocabulary token at all: none of the six fixed
tokens, and no parameterized contribute token. -/
def noVocabTokens (l : List Char) : Bool :=
  fixedTokens.all (fun pat => !containsSeq pat l) && !containsParamTok l

/-- Substring test on strings, via the character-list scanner. -/
def strContains (s sub : String) : Bool :=
  containsSeq sub.toList s.toList

/-- The persisted credential record `~/.prior/config.json`
(client.ts lines 15-18). -/
structure PriorConfig where
  apiKey : String
  agentId : String

/-- Constructor options for `PriorApiClient` (client.ts lines 20-31); every
field is optional, `none` models an omitted (undefined) option. -/
structure PriorClientOptions where
  apiUrl : Option String := none
  apiKey : Option String := none
  agentId : Option String := none
  persistConfig : Option Bool := none
  userAgent : Option String := none

/-- The two environment variables the client reads; `none` models an unset
variable. -/
structure EnvVars where
  priorApiUrl : Option String := none
  priorApiKey : Option String := none

/-- The private state of a constructed `PriorApiClient`
(client.ts lines 33-38). -/
structure ClientState where
  apiUrl : String
  apiKey : Option String
  agentId : Option String
  persistConfig : Bool
  userAgent : String

/-- Truthiness of a JavaScript `string | undefined` value: an omitted value
and the empty string are falsy. -/
def optStrTruthy : Option String → Bool
  | some s => s ≠ ""
  | none => false

/-- `a || b` on `string | undefined` values: keep `a` when truthy, else the
value of `b` (whatever it is). -/
def orOpt (a b : Option String) : Option String :=
  if optStrTruthy a then a else b

/-- `a || d` with a string literal default: the default is used whenever `a`
is omitted or empty. -/
def jsOrD (a : Option String) (d : String) : String :=
  match a with
  | some s => if s = "" then d else s
  | none => d

/-- The configuration error thrown by the constructor
(client.ts lines 57-63). -/
def configErrorMsg : String :=
  "No Prior API key configured. Get your key at https://prior.cg3.io/account and set the PRIOR_API_KEY environment variable, or add it to ~/.prior/config.json. See prior://docs/api-keys for setup instructions."

/-- The `PriorApiClient` constructor (client.ts lines 40-64), as a function
of the options, the environment, and the result of reading the persisted
config file (`disk`, the value `this.loadConfig()` would return).
Credential resolution: `options.apiKey || env.PRIOR_API_KEY`, then — only
when the resolved key is falsy and persistence is enabled — the config
file; when the resolved key is still falsy the constructor throws the
configuration error. -/
def constructClient (options : PriorClientOptions) (env : EnvVars)
    (disk : Option PriorConfig) : Except String ClientState :=
  let apiUrl := jsOrD (orOpt options.apiUrl env.priorApiUrl) "https://api.cg3.io"
  let key0 := orOpt options.apiKey env.priorApiKey
  let agent0 := options.agentId
  let persist := options.persistConfig.getD true
  let userAgent := jsOrD options.userAgent "prior-mcp/0.5.0"
  let loaded :=
    if !optStrTruthy key0 && persist then
      match disk with
      | some config => (some config.apiKey, some config.agentId)
      | none => (key0, agent0)
    else (key0, agent0)
  if optStrTruthy loaded.1 then
    Except.ok
      { apiUrl := apiUrl, apiKey := loaded.1, agentId := loaded.2,
        persistConfig := persist, userAgent := userAgent }
  else
    Except.error configErrorMsg

/-- An HTTP response as `request` observes it: the numeric status and the
body text (`await res.text()`). -/
structure HttpResponse where
  status : Nat
  text : String

/-- `Response.ok` of the fetch API: status in the range 200-299. -/
def resOk (r : HttpResponse) : Bool :=
  200 ≤ r.status && r.status < 300

/-- The response handling of `PriorApiClient.request` (client.ts lines
95-104), parameterized by the platform JSON parser: on a non-2xx status
throw `API error <status>: <text>`; on success return the parsed JSON
value, or — when parsing throws — the raw text unchanged.  The sum type
keeps the two success shapes apart: `inl` is a parsed value, `inr` the raw
text fallback. -/
def requestDispatch (parse : String → Option JValue) (res : HttpResponse) :
    Except String (JValue ⊕ String) :=
  if resOk res then
    match parse res.text with
    | some v => Except.ok (Sum.inl v)
    | none => Except.ok (Sum.inr res.text)
  else
    Except.error ("API error " ++ toString res.status ++ ": " ++ res.text)

/-- `PriorApiClient.loadConfig` (client.ts lines 69-76), parameterized by
the outcome of `fs.readFileSync` and by the platform `JSON.parse` (both
modelled as `Except`, an `error` being a thrown exception).  The
surrounding `try/catch` turns every failure into `null` (here `none`); the
function itself never throws, which is why its result type is `Option`. -/
def loadConfig (readFile : Except String String)
    (parse : String → Except String JValue) : Option JValue :=
  match readFile with
  | Except.error _ => none
  | Except.ok raw =>
    match parse raw with
    | Except.error _ => none
    | Except.ok v => some v

/-- `fs.unlinkSync` on a file modelled by its optional content: deleting a
missing file throws (ENOENT), otherwise the file is gone. -/
def unlinkFile (file : Option String) : Except String (Option String) :=
  match file with
  | none => Except.error "ENOENT"
  | some _ => Except.ok none

/-- `PriorApiClient.clearAuth` (client.ts 0.3.0 snapshot, lines 216-223 of
the concatenated source): clears the cached key and agent id, and when
`deleteConfig` is set unlinks the config file inside a `try/catch` that
swallows any error.  Returns the new client state and the resulting file
state. -/
def clearAuth (st : ClientState) (file : Option String)
    (deleteConfig : Bool) : ClientState × Option String :=
  let st2 := { st with apiKey := none, agentId := none }
  if deleteConfig then
    match unlinkFile file with
    | Except.ok file2 => (st2, file2)
    | Except.error _ => (st2, file)
  else (st2, file)

/-- One pre-built feedback parameter set (entryId plus outcome). -/
structure FbVariant where
  entryId : JValue
  outcome : String

/-- The `not_useful` variant additionally carries the empty placeholder
reason the caller is meant to fill in. -/
structure FbNotUseful where
  entryId : JValue
  outcome : String
  reason : String

/-- The `feedbackActions` triple attached to each shaped search result
(tools.ts lines 119-123). -/
structure FeedbackActions where
  useful : FbVariant
  not_useful : FbNotUseful
  irrelevant : FbVariant

/-- One entry of the structured results list built by the `prior_search`
handler (tools.ts lines 111-124). -/
structure ShapedResult where
  id : JValue
  title : JValue
  content : JValue
  tags : JValue
  qualityScore : JValue
  relevanceScore : JValue
  failedApproaches : JValue
  feedbackActions : FeedbackActions

/-- The per-entry mapping of tools.ts lines 111-124: `id`, `title` and
`content` default to `""` via `||`; the passthrough fields keep their raw
values; the three feedback variants all embed the raw `r.id`. -/
def shapeResult (r : JValue) : ShapedResult :=
  { id := jsOrVal (jsGetProp r "id") (JValue.str "")
    title := jsOrVal (jsGetProp r "title") (JValue.str "")
    content := jsOrVal (jsGetProp r "content") (JValue.str "")
    tags := jsGetProp r "tags"
    qualityScore := jsGetProp r "qualityScore"
    relevanceScore := jsGetProp r "relevanceScore"
    failedApproaches := jsGetProp r "failedApproaches"
    feedbackActions :=
      { useful := { entryId := jsGetProp r "id", outcome := "useful" }
        not_useful :=
          { entryId := jsGetProp r "id", outcome := "not_useful", reason := "" }
        irrelevant := { entryId := jsGetProp r "id", outcome := "irrelevant" } } }

/-- `structuredResults` (tools.ts line 111): the raw results list mapped
element-wise through the shaping function. -/
def structuredResults (rawResults : List JValue) : List ShapedResult :=
  rawResults.map shapeResult

/-- `model || "unknown"` of the `prior_contribute` handler. -/
def contributeModel (model : Option String) : String :=
  jsOrD model "unknown"

/-- A truthy-gated optional string field: `if (v) body.k = v`. -/
def optStrField (k : String) (v : Option String) : List (String × JValue) :=
  match v with
  | some s => if s ≠ "" then [(k, JValue.str s)] else []
  | none => []

/-- A truthy-gated optional array field (arrays are always truthy). -/
def optArrField (k : String) (v : Option (List String)) :
    List (String × JValue) :=
  match v with
  | some l => [(k, JValue.arr (l.map JValue.str))]
  | none => []

/-- A truthy-gated optional object field (objects are always truthy). -/
def optObjField (k : String) (v : Option JValue) : List (String × JValue) :=
  match v with
  | some o => [(k, o)]
  | none => []

/-- The request body assembled by the `prior_contribute` handler (tools.ts
lines 227-234): the base object `\x7b title, content, tags, model: model ||
"unknown" \x7d` followed by the truthy-gated optional fields in source
order. -/
def contributeBody (title content : String) (tags : List String)
    (model : Option String) (problem solution : Option String)
    (errorMessages failedApproaches : Option (List String))
    (environment effort : Option JValue) (ttl : Option String) :
    List (String × JValue) :=
  [("title", JValue.str title), ("content", JValue.str content),
   ("tags", JValue.arr (tags.map JValue.str)),
   ("model", JValue.str (contributeModel model))]
  ++ optStrField "problem" problem
  ++ optStrField "solution" solution
  ++ optArrField "errorMessages" errorMessages
  ++ optArrField "failedApproaches" failedApproaches
  ++ optObjField "environment" environment
  ++ optObjField "effort" effort
  ++ optStrField "ttl" ttl

/-- The structured output of the `prior_status` handler. -/
structure StatusOut where
  agentId : JValue
  credits : JValue
  tier : JValue
  claimed : JValue
  contributions : JValue

/-- `a ?? b` (nullish coalescing) on values: `b` exactly when `a` is `null`
or `undefined`. -/
def jsNullish (a b : JValue) : JValue :=
  match a with
  | .null => b
  | .undefined => b
  | v => v

/-- The `prior_status` handler (tools.ts lines 309-322): unwrap with
`data?.data || data`, then build the structured content with its `||` and
`??` defaults. -/
def priorStatusStructured (data : JValue) : StatusOut :=
  let agent := jsOrVal (jsGetProp data "data") data
  { agentId :=
      jsOrVal (jsOrVal (jsGetProp agent "agentId") (jsGetProp agent "id"))
        (JValue.str "")
    credits := jsNullish (jsGetProp agent "credits") (JValue.num 0)
    tier := jsOrVal (jsGetProp agent "tier") (JValue.str "free")
    claimed := jsNullish (jsGetProp agent "claimed") (JValue.bool false)
    contributions := jsGetProp agent "contributions" }

/-- The unwrapping rule as claims C1 and C10 word it: use the `data` field
whenever it is PRESENT (the code instead requires it to be truthy). -/
def specUnwrapPresent (d : JValue) : JValue :=
  if jsHasOwn d "data" then jsGetProp d "data" else d

/-- Whether a value is nullish (`null` or `undefined`), the condition under
which `??` takes its right operand. -/
def isNullishB : JValue → Bool
  | .null => true
  | .undefined => true
  | _ => false

/-- The cached api key of a construction outcome (`none` when construction
threw). -/
def clientKey : Except String ClientState → Option (Option String)
  | .ok st => some st.apiKey
  | .error _ => none

/-- The cached agent id of a construction outcome (`none` when construction
threw). -/
def clientAgent : Except String ClientState → Option (Option String)
  | .ok st => some st.agentId
  | .error _ => none

/-- Every JavaScript value other than `undefined` serializes to a string. -/
theorem serialize_isSome (gap indent : String) (v : JValue)
    (h : v ≠ JValue.undefined) : ∃ s, serialize gap indent v = some s := by
  cases v <;> first
  | exact absurd rfl h
  | exact ⟨_, rfl⟩

/-- A payload whose unwrapped `results` field is a proper value cannot be
the top-level `undefined`. -/
theorem ne_undef_of_results (p : JValue) (l : List JValue)
    (h : jsGetProp (jsOrVal (jsGetProp p "data") p) "results" = JValue.arr l) :
    p ≠ JValue.undefined := by
  rintro rfl
  simp [jsGetProp, jsOrVal, truthy] at h

/-- Shared branch analysis: in the no-nudge class the function returns the
plain pretty serialization. -/
theorem formatResults_plain_aux (p : JValue)
    (h : plainSerializationCase p = true) :
    formatResults p = serOut p := by
  unfold formatResults serOut
  cases hj : jsonStringify2 p with
  | none => simp
  | some json =>
    simp only []
    revert h
    unfold plainSerializationCase
    cases hr : jsGetProp (jsOrVal (jsGetProp p "data") p) "results" with
    | arr l =>
      cases l with
      | nil => intro h; rfl
      | cons top rest =>
        cases top with
        | obj fs =>
          intro h
          simp only [Bool.not_eq_true'] at h
          simp [truthy, h]
        | arr l2 => intro h; rfl
        | null => intro h; simp [truthy]
        | undefined => intro h; simp [truthy]
        | bool b =>
          intro h
          simp only [Bool.not_eq_true'] at h
          simp [truthy] at h
          simp [truthy, h]
        | num n =>
          intro h
          simp only [Bool.not_eq_true'] at h
          simp [truthy] at h
          simp [truthy, h]
        | str s =>
          intro h
          simp only [Bool.not_eq_true'] at h
          simp [truthy] at h
          simp [truthy, h]
    | null => intro h; rfl
    | undefined => intro h; rfl
    | bool b => intro h; rfl
    | num n => intro h; rfl
    | str s => intro h; rfl
    | obj fs => intro h; rfl

/-- Positive branch analysis: when the unwrapped `results` is a non-empty
array whose first element is an object passing the id gate, the output is
the pretty serialization followed by the nudge block for the first id and
the joined id list. -/
theorem formatResults_nudge_aux (p : JValue) (fs : List (String × JValue))
    (rest : List JValue)
    (hres : jsGetProp (jsOrVal (jsGetProp p "data") p) "results" =
      JValue.arr (JValue.obj fs :: rest))
    (hhas : jsHasOwn (JValue.obj fs) "id" = true)
    (hid : usableId (jsGetProp (JValue.obj fs) "id") = true) :
    ∃ json, jsonStringify2 p = some json ∧
      formatResults p = JsOut.str (json ++
        feedbackNudgeBlock (jsToString (jsGetProp (JValue.obj fs) "id"))
          (resultsIds (JValue.obj fs :: rest))) := by
  obtain ⟨json, hj⟩ :=
    serialize_isSome "  " "" p (ne_undef_of_results p _ hres)
  have hj2 : jsonStringify2 p = some json := hj
  refine ⟨json, hj2, ?_⟩
  unfold formatResults
  simp only [hj2, hres, truthy, if_true]
  simp [hhas, hid]

/-- Claim C1 (amended): for every payload whose results list — taken from
the `data` field when that field is truthy, otherwise from the payload
itself — is a non-empty array whose first element is an object carrying an
`id` property that is not null, not undefined and not the empty string,
`formatResults` returns the pretty JSON rendering of the input followed by
exactly one feedback-nudge block anchored to that first id (the three
pre-built prior_feedback parameter sets for useful, not_useful and
irrelevant), plus the All-result-IDs line listing the coerced id of every
element in order with the empty string substituted for every falsy id; and for
every payload of the no-nudge class, nothing is appended: the output is the
plain serialization. -/
theorem c1_formatResults_nudge :
    (∀ (p : JValue) (fs : List (String × JValue)) (rest : List JValue),
      jsGetProp (jsOrVal (jsGetProp p "data") p) "results" =
        JValue.arr (JValue.obj fs :: rest) →
      jsHasOwn (JValue.obj fs) "id" = true →
      usableId (jsGetProp (JValue.obj fs) "id") = true →
      ∃ json, jsonStringify2 p = some json ∧
        formatResults p = JsOut.str (json ++
          feedbackNudgeBlock (jsToString (jsGetProp (JValue.obj fs) "id"))
            (resultsIds (JValue.obj fs :: rest)))) ∧
    (∀ p : JValue, plainSerializationCase p = true →
      formatResults p = serOut p) :=
  ⟨formatResults_nudge_aux, formatResults_plain_aux⟩

/-- Witness for C1 at the concrete payload
`\x7b results: [\x7b id: "k1" \x7d] \x7d` and, for the negative clause, at
`\x7b results: [] \x7d`. -/
theorem c1_formatResults_nudge_witness :
    (∃ json,
      jsonStringify2 (JValue.obj [("results",
        JValue.arr [JValue.obj [("id", JValue.str "k1")]])]) = some json ∧
      formatResults (JValue.obj [("results",
        JValue.arr [JValue.obj [("id", JValue.str "k1")]])]) =
        JsOut.str (json ++ feedbackNudgeBlock "k1" "k1")) ∧
    formatResults (JValue.obj [("results", JValue.arr [])]) =
      serOut (JValue.obj [("results", JValue.arr [])]) :=
  ⟨c1_formatResults_nudge.1 _ [("id", JValue.str "k1")] [] rfl rfl rfl,
   c1_formatResults_nudge.2 _ rfl⟩

/-- Counterexample to C1 as stated: at
`\x7b results: [\x7b id: "k1" \x7d, \x7b id: 0 \x7d] \x7d` the second id is
present (it is `0`, not missing), so the claimed All-result-IDs line is
`k1, 0`; the code renders every falsy id as blank and produces `k1, `. -/
theorem c1_formatResults_nudge_counterexample :
    formatResults (JValue.obj [("results", JValue.arr
        [JValue.obj [("id", JValue.str "k1")],
         JValue.obj [("id", JValue.num 0)]])]) =
      JsOut.str ((jsonStringify2 (JValue.obj [("results", JValue.arr
        [JValue.obj [("id", JValue.str "k1")],
         JValue.obj [("id", JValue.num 0)]])])).getD "" ++
        feedbackNudgeBlock "k1" "k1, ") ∧
    claimIdsLineMissing
        [JValue.obj [("id", JValue.str "k1")],
         JValue.obj [("id", JValue.num 0)]] = "k1, 0" ∧
    formatResults (JValue.obj [("results", JValue.arr
        [JValue.obj [("id", JValue.str "k1")],
         JValue.obj [("id", JValue.num 0)]])]) ≠
      JsOut.str ((jsonStringify2 (JValue.obj [("results", JValue.arr
        [JValue.obj [("id", JValue.str "k1")],
         JValue.obj [("id", JValue.num 0)]])])).getD "" ++
        feedbackNudgeBlock "k1" (claimIdsLineMissing
          [JValue.obj [("id", JValue.str "k1")],
           JValue.obj [("id", JValue.num 0)]])) := by
  refine ⟨rfl, rfl, ?_⟩
  decide

/-- Claim C2 (amended): for every payload of the no-nudge class — results
absent, empty or not an array, or a first element that is an array, a
falsy value, or an object whose id is absent, null, undefined or empty —
the output of `formatResults` is byte-identical to the pretty serialization
`JSON.stringify(input, null, 2)`, with no separator or nudge appended.
(When the first element is a truthy primitive the code instead throws a
TypeError from the `in` operator, so that case is excluded here.) -/
theorem c2_formatResults_plain (p : JValue)
    (h : plainSerializationCase p = true) :
    formatResults p = serOut p :=
  formatResults_plain_aux p h

/-- Witness for C2 at the concrete payload `\x7b results: null \x7d`. -/
theorem c2_formatResults_plain_witness :
    plainSerializationCase (JValue.obj [("results", JValue.null)]) = true ∧
    formatResults (JValue.obj [("results", JValue.null)]) =
      serOut (JValue.obj [("results", JValue.null)]) :=
  ⟨rfl, c2_formatResults_plain _ rfl⟩

/-- Counterexample to C2 as stated: at `\x7b results: [] \x7d` the code
returns the two-space pretty rendering, which is not byte-identical to the
compact `JSON.stringify(input)` the claim prescribes. -/
theorem c2_formatResults_plain_counterexample :
    formatResults (JValue.obj [("results", JValue.arr [])]) =
      JsOut.str "\x7b\n  \"results\": []\n\x7d" ∧
    jsonStringify (JValue.obj [("results", JValue.arr [])]) =
      some "\x7b\"results\":[]\x7d" ∧
    ("\x7b\n  \"results\": []\n\x7d" : String) ≠ "\x7b\"results\":[]\x7d" := by
  refine ⟨rfl, rfl, ?_⟩
  decide

/-- Claim C4: the constructor resolves the credential by strict precedence —
an explicitly passed (truthy) apiKey first, then the environment credential,
then the persisted config file only when persistConfig is enabled — and when
no source yields a credential it fails immediately with the configuration
error, whose text names the environment variable, the config file and the
setup documentation. -/
theorem c4_constructor_precedence :
    (∀ (options : PriorClientOptions) (env : EnvVars)
       (disk : Option PriorConfig) (k : String),
      options.apiKey = some k → k ≠ "" →
      clientKey (constructClient options env disk) = some (some k)) ∧
    (∀ (options : PriorClientOptions) (env : EnvVars)
       (disk : Option PriorConfig) (k : String),
      optStrTruthy options.apiKey = false →
      env.priorApiKey = some k → k ≠ "" →
      clientKey (constructClient options env disk) = some (some k)) ∧
    (∀ (options : PriorClientOptions) (env : EnvVars) (config : PriorConfig),
      optStrTruthy options.apiKey = false →
      optStrTruthy env.priorApiKey = false →
      options.persistConfig.getD true = true →
      config.apiKey ≠ "" →
      clientKey (constructClient options env (some config)) =
        some (some config.apiKey) ∧
      clientAgent (constructClient options env (some config)) =
        some (some config.agentId)) ∧
    (∀ (options : PriorClientOptions) (env : EnvVars)
       (disk : Option PriorConfig),
      optStrTruthy options.apiKey = false →
      optStrTruthy env.priorApiKey = false →
      options.persistConfig = some false →
      constructClient options env disk = Except.error configErrorMsg) ∧
    (∀ (options : PriorClientOptions) (env : EnvVars),
      optStrTruthy options.apiKey = false →
      optStrTruthy env.priorApiKey = false →
      constructClient options env none = Except.error configErrorMsg) ∧
    (∀ (options : PriorClientOptions) (env : EnvVars) (config : PriorConfig),
      optStrTruthy options.apiKey = false →
      optStrTruthy env.priorApiKey = false →
      config.apiKey = "" →
      constructClient options env (some config) = Except.error configErrorMsg) ∧
    (strContains configErrorMsg "PRIOR_API_KEY" = true ∧
     strContains configErrorMsg "~/.prior/config.json" = true ∧
     strContains configErrorMsg "prior://docs/api-keys" = true) := by
  refine ⟨?_, ?_, ?_, ?_, ?_, ?_, ?_⟩
  · intro options env disk k h1 h2
    simp [clientKey, constructClient, orOpt, optStrTruthy, h1, h2]
  · intro options env disk k h1 h2 h3
    have hkey : orOpt options.apiKey env.priorApiKey = some k := by
      simp [orOpt, h1, h2]
    simp [clientKey, constructClient, hkey, optStrTruthy, h3]
  · intro options env config h1 h2 h3 h4
    have hkey : orOpt options.apiKey env.priorApiKey = env.priorApiKey := by
      simp [orOpt, h1]
    have hc : optStrTruthy (some config.apiKey) = true := by
      simp [optStrTruthy, h4]
    constructor <;>
      simp [clientKey, clientAgent, constructClient, hkey, h2, h3, hc]
  · intro options env disk h1 h2 h3
    have hkey : orOpt options.apiKey env.priorApiKey = env.priorApiKey := by
      simp [orOpt, h1]
    simp [constructClient, hkey, h2, h3]
  · intro options env h1 h2
    have hkey : orOpt options.apiKey env.priorApiKey = env.priorApiKey := by
      simp [orOpt, h1]
    by_cases h3 : options.persistConfig.getD true = true <;>
      simp [constructClient, hkey, h2, h3]
  · intro options env config h1 h2 h3
    have hkey : orOpt options.apiKey env.priorApiKey = env.priorApiKey := by
      simp [orOpt, h1]
    have hc : optStrTruthy (some config.apiKey) = false := by
      simp [optStrTruthy, h3]
    by_cases h4 : options.persistConfig.getD true = true <;>
      simp [constructClient, hkey, h2, h3, h4, hc] <;> decide
  · refine ⟨?_, ?_, ?_⟩ <;> decide

/-- Witness for C4: one concrete instantiation per precedence clause. -/
theorem c4_constructor_precedence_witness :
    clientKey (constructClient { apiKey := some "K" }
      { priorApiKey := some "E" } (some ⟨"D", "ag"⟩)) = some (some "K") ∧
    clientKey (constructClient {} { priorApiKey := some "E" }
      (some ⟨"D", "ag"⟩)) = some (some "E") ∧
    (clientKey (constructClient {} {} (some ⟨"D", "ag"⟩)) =
       some (some "D") ∧
     clientAgent (constructClient {} {} (some ⟨"D", "ag"⟩)) =
       some (some "ag")) ∧
    constructClient { persistConfig := some false } {} (some ⟨"D", "ag"⟩) =
      Except.error configErrorMsg ∧
    constructClient {} {} none = Except.error configErrorMsg ∧
    constructClient {} {} (some ⟨"", "ag"⟩) = Except.error configErrorMsg :=
  ⟨c4_constructor_precedence.1 _ _ _ "K" rfl (by decide),
   c4_constructor_precedence.2.1 _ _ _ "E" rfl rfl (by decide),
   c4_constructor_precedence.2.2.1 _ _ _ rfl rfl rfl (by decide),
   c4_constructor_precedence.2.2.2.1 _ _ _ rfl rfl rfl,
   c4_constructor_precedence.2.2.2.2.1 _ _ rfl rfl,
   c4_constructor_precedence.2.2.2.2.2.1 _ _ _ rfl rfl rfl⟩

/-- Claim C5: on a non-success status `request` fails with the API error
carrying the status code and the raw body text, independently of the JSON
parser (the error body is never parsed); on success the parsed JSON value
is returned, and a parse failure yields the raw text unchanged instead of
an error. -/
theorem c5_request_error_handling :
    (∀ (parse : String → Option JValue) (res : HttpResponse),
      resOk res = false →
      requestDispatch parse res =
        Except.error ("API error " ++ toString res.status ++ ": " ++ res.text)) ∧
    (∀ (parse1 parse2 : String → Option JValue) (res : HttpResponse),
      resOk res = false →
      requestDispatch parse1 res = requestDispatch parse2 res) ∧
    (∀ (parse : String → Option JValue) (res : HttpResponse) (v : JValue),
      resOk res = true → parse res.text = some v →
      requestDispatch parse res = Except.ok (Sum.inl v)) ∧
    (∀ (parse : String → Option JValue) (res : HttpResponse),
      resOk res = true → parse res.text = none →
      requestDispatch parse res = Except.ok (Sum.inr res.text)) := by
  refine ⟨?_, ?_, ?_, ?_⟩
  · intro parse res h; simp [requestDispatch, h]
  · intro parse1 parse2 res h; simp [requestDispatch, h]
  · intro parse res v h1 h2; simp [requestDispatch, h1, h2]
  · intro parse res h1 h2; simp [requestDispatch, h1, h2]

/-- Witness for C5 at status 404 (error path, two different parsers) and
status 200 (both success shapes). -/
theorem c5_request_error_handling_witness :
    requestDispatch (fun _ => none) ⟨404, "nope"⟩ =
      Except.error ("API error " ++ toString (404 : Nat) ++ ": " ++ "nope") ∧
    requestDispatch (fun _ => none) ⟨500, "x"⟩ =
      requestDispatch (fun _ => some JValue.null) ⟨500, "x"⟩ ∧
    requestDispatch (fun _ => some (JValue.arr [])) ⟨200, "[]"⟩ =
      Except.ok (Sum.inl (JValue.arr [])) ∧
    requestDispatch (fun _ => none) ⟨200, "ok"⟩ =
      Except.ok (Sum.inr "ok") :=
  ⟨c5_request_error_handling.1 _ _ rfl,
   c5_request_error_handling.2.1 _ _ _ rfl,
   c5_request_error_handling.2.2.1 _ _ _ rfl rfl,
   c5_request_error_handling.2.2.2 _ _ rfl rfl⟩

/-- Claim C7: `loadConfig` never throws — its result type is `Option`, and
every failure of the read or of the parse yields `none`, while a successful
read-and-parse yields the parsed record. -/
theorem c7_loadConfig_never_throws :
    (∀ (e : String) (parse : String → Except String JValue),
      loadConfig (Except.error e) parse = none) ∧
    (∀ (raw msg : String) (parse : String → Except String JValue),
      parse raw = Except.error msg →
      loadConfig (Except.ok raw) parse = none) ∧
    (∀ (raw : String) (parse : String → Except String JValue) (v : JValue),
      parse raw = Except.ok v →
      loadConfig (Except.ok raw) parse = some v) := by
  refine ⟨?_, ?_, ?_⟩
  · intro e parse; rfl
  · intro raw msg parse h; simp [loadConfig, h]
  · intro raw parse v h; simp [loadConfig, h]

/-- Witness for C7: a missing file, a malformed file, and a well-formed
file. -/
theorem c7_loadConfig_never_throws_witness :
    loadConfig (Except.error "ENOENT") (fun _ => Except.ok JValue.null) =
      none ∧
    loadConfig (Except.ok "not json") (fun _ => Except.error "SyntaxError") =
      none ∧
    loadConfig (Except.ok "\x7b\x7d") (fun _ => Except.ok (JValue.obj [])) =
      some (JValue.obj []) :=
  ⟨c7_loadConfig_never_throws.1 "ENOENT" _,
   c7_loadConfig_never_throws.2.1 "not json" "SyntaxError" _ rfl,
   c7_loadConfig_never_throws.2.2 "\x7b\x7d" _ (JValue.obj []) rfl⟩

/-- Claim C9: `clearAuth` always clears the cached apiKey and agentId and
leaves the other state fields alone; with the delete flag the config file
ends up absent (a missing file being swallowed, the call still returns),
and without the flag the file is untouched. -/
theorem c9_clearAuth_clears :
    ∀ (st : ClientState) (file : Option String) (deleteConfig : Bool),
      (clearAuth st file deleteConfig).1.apiKey = none ∧
      (clearAuth st file deleteConfig).1.agentId = none ∧
      (clearAuth st file deleteConfig).1.apiUrl = st.apiUrl ∧
      (clearAuth st file deleteConfig).1.persistConfig = st.persistConfig ∧
      (clearAuth st file deleteConfig).1.userAgent = st.userAgent ∧
      (deleteConfig = true → (clearAuth st file deleteConfig).2 = none) ∧
      (deleteConfig = false → (clearAuth st file deleteConfig).2 = file) := by
  intro st file deleteConfig
  cases deleteConfig with
  | false => simp [clearAuth]
  | true =>
    cases file with
    | none => simp [clearAuth, unlinkFile]
    | some s => simp [clearAuth, unlinkFile]

/-- Witness for C9 at a fully populated state, with and without the delete
flag, including the missing-file case. -/
theorem c9_clearAuth_clears_witness :
    (clearAuth ⟨"u", some "k", some "a", true, "ua"⟩ (some "cfg") true).1.apiKey
      = none ∧
    (clearAuth ⟨"u", some "k", some "a", true, "ua"⟩ (some "cfg") true).2
      = none ∧
    (clearAuth ⟨"u", some "k", some "a", true, "ua"⟩ none true).2 = none ∧
    (clearAuth ⟨"u", some "k", some "a", true, "ua"⟩ (some "cfg") false).2
      = some "cfg" :=
  ⟨(c9_clearAuth_clears ⟨"u", some "k", some "a", true, "ua"⟩ (some "cfg")
      true).1,
   (c9_clearAuth_clears ⟨"u", some "k", some "a", true, "ua"⟩ (some "cfg")
      true).2.2.2.2.2.1 rfl,
   (c9_clearAuth_clears ⟨"u", some "k", some "a", true, "ua"⟩ none
      true).2.2.2.2.2.1 rfl,
   (c9_clearAuth_clears ⟨"u", some "k", some "a", true, "ua"⟩ (some "cfg")
      false).2.2.2.2.2.2 rfl⟩

/-- A key that no field of an object carries looks up to `none`. -/
theorem lookup_eq_none_of_any_false (key : String) :
    ∀ (fields : List (String × JValue)),
      fields.any (fun p => p.1 = key) = false → fields.lookup key = none := by
  intro fields
  induction fields with
  | nil => intro _; rfl
  | cons p ps ih =>
    intro h
    obtain ⟨a, b⟩ := p
    rw [List.any_cons] at h
    have h1 : (decide (a = key) : Bool) = false := by
      cases hd : (decide (a = key) : Bool)
      · rfl
      · rw [hd] at h; simp at h
    have h2 : ps.any (fun p => p.1 = key) = false := by
      cases hd : ps.any (fun p => p.1 = key)
      · rfl
      · rw [hd] at h; simp at h
    have hak : ¬ a = key := of_decide_eq_false h1
    have hka : (key == a) = false := by
      rw [beq_eq_false_iff_ne]
      exact fun hk => hak hk.symm
    simp only [List.lookup, hka]
    exact ih h2

/-- Property access on a value without that property yields `undefined`. -/
theorem jsGetProp_eq_undef (v : JValue) (key : String)
    (h : jsHasOwn v key = false) : jsGetProp v key = JValue.undefined := by
  cases v with
  | obj fields =>
    simp only [jsHasOwn] at h
    simp [jsGetProp, lookup_eq_none_of_any_false key fields h]
  | null => rfl
  | undefined => rfl
  | bool b => rfl
  | num n => rfl
  | str s => rfl
  | arr l => rfl

/-- Claim C6: the structured results list preserves length, and every entry
carries the feedbackActions triple whose three variants embed the raw id
of the entry itself, with outcomes useful / not_useful / irrelevant and the
empty placeholder reason on not_useful. -/
theorem c6_structuredResults_triple :
    ∀ (rs : List JValue),
      (structuredResults rs).length = rs.length ∧
      (∀ (i : Nat) (h1 : i < (structuredResults rs).length)
         (h2 : i < rs.length),
        ((structuredResults rs).get ⟨i, h1⟩).feedbackActions.useful.entryId =
          jsGetProp (rs.get ⟨i, h2⟩) "id" ∧
        ((structuredResults rs).get
            ⟨i, h1⟩).feedbackActions.not_useful.entryId =
          jsGetProp (rs.get ⟨i, h2⟩) "id" ∧
        ((structuredResults rs).get
            ⟨i, h1⟩).feedbackActions.irrelevant.entryId =
          jsGetProp (rs.get ⟨i, h2⟩) "id" ∧
        ((structuredResults rs).get ⟨i, h1⟩).feedbackActions.useful.outcome =
          "useful" ∧
        ((structuredResults rs).get
            ⟨i, h1⟩).feedbackActions.not_useful.outcome = "not_useful" ∧
        ((structuredResults rs).get
            ⟨i, h1⟩).feedbackActions.not_useful.reason = "" ∧
        ((structuredResults rs).get
            ⟨i, h1⟩).feedbackActions.irrelevant.outcome = "irrelevant") := by
  intro rs
  refine ⟨by simp [structuredResults], ?_⟩
  intro i h1 h2
  have hg : (structuredResults rs).get ⟨i, h1⟩ =
      shapeResult (rs.get ⟨i, h2⟩) := by
    simp [structuredResults, List.get_eq_getElem, List.getElem_map]
  rw [hg]
  exact ⟨rfl, rfl, rfl, rfl, rfl, rfl, rfl⟩

/-- Witness for C6 at a one-element raw results list. -/
theorem c6_structuredResults_triple_witness :
    (structuredResults [JValue.obj [("id", JValue.str "k1")]]).length =
      [JValue.obj [("id", JValue.str "k1")]].length ∧
    ((structuredResults [JValue.obj [("id", JValue.str "k1")]]).get
        ⟨0, by simp [structuredResults]⟩).feedbackActions.useful.entryId =
      jsGetProp ([JValue.obj [("id", JValue.str "k1")]].get
        ⟨0, by simp⟩) "id" :=
  ⟨(c6_structuredResults_triple [JValue.obj [("id", JValue.str "k1")]]).1,
   ((c6_structuredResults_triple [JValue.obj [("id", JValue.str "k1")]]).2 0
      (by simp [structuredResults]) (by simp)).1⟩

/-- Claim C8: the contribute request body carries `model = "unknown"` when
the caller omits the model, and the exact caller-supplied string when a
non-empty model is given. -/
theorem c8_contribute_model_default :
    (∀ (title content : String) (tags : List String)
       (problem solution : Option String)
       (errorMessages failedApproaches : Option (List String))
       (environment effort : Option JValue) (ttl : Option String),
      (contributeBody title content tags none problem solution errorMessages
          failedApproaches environment effort ttl).lookup "model" =
        some (JValue.str "unknown")) ∧
    (∀ (title content : String) (tags : List String) (m : String)
       (problem solution : Option String)
       (errorMessages failedApproaches : Option (List String))
       (environment effort : Option JValue) (ttl : Option String),
      m ≠ "" →
      (contributeBody title content tags (some m) problem solution
          errorMessages failedApproaches environment effort ttl).lookup
        "model" = some (JValue.str m)) := by
  constructor
  · intro title content tags problem solution errorMessages failedApproaches
      environment effort ttl
    simp [contributeBody, contributeModel, jsOrD, List.lookup]
  · intro title content tags m problem solution errorMessages failedApproaches
      environment effort ttl hm
    simp [contributeBody, contributeModel, jsOrD, List.lookup, hm]

/-- Witness for C8: an omitted model and the model "claude-sonnet". -/
theorem c8_contribute_model_default_witness :
    (contributeBody "t" "c" ["tag"] none none none none none none none
        none).lookup "model" = some (JValue.str "unknown") ∧
    (contributeBody "t" "c" ["tag"] (some "claude-sonnet") none none none
        none none none none).lookup "model" =
      some (JValue.str "claude-sonnet") :=
  ⟨c8_contribute_model_default.1 "t" "c" ["tag"] none none none none none
      none none,
   c8_contribute_model_default.2 "t" "c" ["tag"] "claude-sonnet" none none
      none none none none none (by decide)⟩

/-- Claim C10 (amended): with the unwrapped payload `data?.data || data`
(the `data` field when truthy, else the payload), the prior_status
structured output substitutes the fixed defaults: credits 0 when credits is
absent or nullish, tier "free" when tier is absent, claimed false when
claimed is absent or nullish, and agentId "" when both agentId and id are
absent. -/
theorem c10_status_defaults :
    ∀ d : JValue,
      (isNullishB (jsGetProp (jsOrVal (jsGetProp d "data") d) "credits") =
          true → (priorStatusStructured d).credits = JValue.num 0) ∧
      (jsHasOwn (jsOrVal (jsGetProp d "data") d) "tier" = false →
        (priorStatusStructured d).tier = JValue.str "free") ∧
      (isNullishB (jsGetProp (jsOrVal (jsGetProp d "data") d) "claimed") =
          true → (priorStatusStructured d).claimed = JValue.bool false) ∧
      (jsHasOwn (jsOrVal (jsGetProp d "data") d) "agentId" = false →
        jsHasOwn (jsOrVal (jsGetProp d "data") d) "id" = false →
        (priorStatusStructured d).agentId = JValue.str "") := by
  intro d
  refine ⟨?_, ?_, ?_, ?_⟩
  · intro h
    simp only [priorStatusStructured]
    cases hx : jsGetProp (jsOrVal (jsGetProp d "data") d) "credits" <;>
      first
      | rfl
      | (rw [hx] at h; simp [isNullishB] at h)
  · intro h
    have hx := jsGetProp_eq_undef _ _ h
    simp only [priorStatusStructured]
    rw [hx]
    rfl
  · intro h
    simp only [priorStatusStructured]
    cases hx : jsGetProp (jsOrVal (jsGetProp d "data") d) "claimed" <;>
      first
      | rfl
      | (rw [hx] at h; simp [isNullishB] at h)
  · intro h1 h2
    have k1 := jsGetProp_eq_undef _ _ h1
    have k2 := jsGetProp_eq_undef _ _ h2
    simp only [priorStatusStructured]
    rw [k1, k2]
    rfl

/-- Witness for C10 at the payload `null` (everything absent). -/
theorem c10_status_defaults_witness :
    (priorStatusStructured JValue.null).credits = JValue.num 0 ∧
    (priorStatusStructured JValue.null).tier = JValue.str "free" ∧
    (priorStatusStructured JValue.null).claimed = JValue.bool false ∧
    (priorStatusStructured JValue.null).agentId = JValue.str "" :=
  ⟨(c10_status_defaults JValue.null).1 rfl,
   (c10_status_defaults JValue.null).2.1 rfl,
   (c10_status_defaults JValue.null).2.2.1 rfl,
   (c10_status_defaults JValue.null).2.2.2 rfl rfl⟩

/-- Counterexample to C10 as stated: at
`\x7b data: null, credits: 7 \x7d` the `data` field is present, so the
claim unwraps to `null`, whose credits are absent — the claim then demands
credits 0; the truthy unwrap of the code keeps the whole payload and
reports credits 7. -/
theorem c10_status_defaults_counterexample :
    jsHasOwn (JValue.obj [("data", JValue.null), ("credits", JValue.num 7)])
      "data" = true ∧
    specUnwrapPresent
        (JValue.obj [("data", JValue.null), ("credits", JValue.num 7)]) =
      JValue.null ∧
    jsGetProp JValue.null "credits" = JValue.undefined ∧
    (priorStatusStructured
        (JValue.obj [("data", JValue.null), ("credits", JValue.num 7)])).credits
      = JValue.num 7 ∧
    JValue.num 7 ≠ JValue.num 0 := by
  refine ⟨rfl, rfl, rfl, rfl, ?_⟩
  intro h
  injection h with h2
  exact absurd h2 (by decide)

/-- A list prefix decomposes the list as itself plus the dropped suffix. -/
theorem isPrefixOf_eq_append (p : List Char) :
    ∀ l, p.isPrefixOf l = true → l = p ++ l.drop p.length := by
  induction p with
  | nil => intro l _; simp
  | cons a p2 ih =>
    intro l h
    cases l with
    | nil => simp [List.isPrefixOf] at h
    | cons b l2 =>
      simp only [List.isPrefixOf, Bool.and_eq_true, beq_iff_eq] at h
      obtain ⟨rfl, h2⟩ := h
      simp only [List.length_cons, List.drop_succ_cons, List.cons_append]
      exact congrArg (List.cons a) (ih l2 h2)

/-- Occurrence search is monotone under dropping a left context. -/
theorem containsSeq_append_right (pat : List Char) :
    ∀ (x y : List Char), containsSeq pat (x ++ y) = false →
      containsSeq pat y = false := by
  intro x
  induction x with
  | nil => intro y h; simpa using h
  | cons a x2 ih =>
    intro y h
    simp only [List.cons_append, containsSeq, Bool.or_eq_false_iff] at h
    exact ih y h.2

/-- No occurrence in a list means no occurrence in any of its drops. -/
theorem containsSeq_drop (pat l : List Char) (n : Nat)
    (h : containsSeq pat l = false) : containsSeq pat (l.drop n) = false := by
  have h2 := containsSeq_append_right pat (l.take n) (l.drop n)
  rw [List.take_append_drop] at h2
  exact h2 h

/-- A pattern cannot begin at a character different from its head. -/
theorem isPrefixOf_false_of_head_ne (pat : List Char) (c0 : Char)
    (hp : pat.head? = some c0) (c : Char) (z : List Char) (hne : c0 ≠ c) :
    pat.isPrefixOf (c :: z) = false := by
  cases pat with
  | nil => simp at hp
  | cons p0 pt =>
    have h0 : p0 = c0 := by simpa using hp
    subst h0
    have hbe : (p0 == c) = false := by
      rw [beq_eq_false_iff_ne]; exact hne
    simp [List.isPrefixOf, hbe]

/-- Occurrences of a pattern skip over any left context free of the
pattern head character. -/
theorem containsSeq_append_headFree (pat : List Char) (c0 : Char)
    (hp : pat.head? = some c0) :
    ∀ (x y : List Char), c0 ∉ x →
      containsSeq pat (x ++ y) = containsSeq pat y := by
  intro x
  induction x with
  | nil => intro y _; rfl
  | cons a x2 ih =>
    intro y hx
    have hne : c0 ≠ a := by
      intro hc; exact hx (hc ▸ List.mem_cons_self a x2)
    have hx2 : c0 ∉ x2 := fun hc => hx (List.mem_cons_of_mem a hc)
    show (pat.isPrefixOf (a :: (x2 ++ y)) || containsSeq pat (x2 ++ y)) =
      containsSeq pat y
    rw [isPrefixOf_false_of_head_ne pat c0 hp a (x2 ++ y) hne, Bool.false_or]
    exact ih y hx2

/-- A prefix of a `litReplace` output is empty, a prefix of the input, or
contains the head character of the replacement. -/
theorem litReplace_prefixTransfer (pat rep : List Char) (r0 : Char)
    (hr : rep.head? = some r0) :
    ∀ l k, k.isPrefixOf (litReplace pat rep l) = true →
      k = [] ∨ k.isPrefixOf l = true ∨ r0 ∈ k := by
  intro l
  induction l using litReplace.induct pat rep with
  | case1 =>
    intro k h
    rw [litReplace] at h
    cases k with
    | nil => exact Or.inl rfl
    | cons k0 k2 => simp [List.isPrefixOf] at h
  | case2 c cs hc ih =>
    intro k h
    rw [litReplace, if_pos hc] at h
    cases k with
    | nil => exact Or.inl rfl
    | cons k0 k2 =>
      right; right
      cases rep with
      | nil => simp at hr
      | cons rr rep2 =>
        have h0 : rr = r0 := by simpa using hr
        subst h0
        simp only [List.cons_append, List.isPrefixOf, Bool.and_eq_true,
          beq_iff_eq] at h
        rw [h.1]
        exact List.mem_cons_self _ _
  | case3 c cs hc ih =>
    intro k h
    rw [litReplace, if_neg hc] at h
    cases k with
    | nil => exact Or.inl rfl
    | cons k0 k2 =>
      simp only [List.isPrefixOf, Bool.and_eq_true, beq_iff_eq] at h
      obtain ⟨rfl, h2⟩ := h
      rcases ih k2 h2 with h3 | h3 | h3
      · subst h3
        right; left
        simp [List.isPrefixOf]
      · right; left
        simp [List.isPrefixOf, h3]
      · right; right
        exact List.mem_cons_of_mem _ h3

/-- After `litReplace pat rep`, no occurrence of `pat` remains, provided the
pattern head does not occur in the replacement and the replacement head does
not occur in the pattern. -/
theorem litReplace_eliminates (pat rep : List Char) (p0 r0 : Char)
    (hp : pat.head? = some p0) (hr : rep.head? = some r0)
    (hrp : r0 ∉ pat) (hpr : p0 ∉ rep) :
    ∀ l, containsSeq pat (litReplace pat rep l) = false := by
  have hpat_ne : pat ≠ [] := by
    intro h; rw [h] at hp; simp at hp
  intro l
  induction l using litReplace.induct pat rep with
  | case1 =>
    rw [litReplace]
    cases pat with
    | nil => exact absurd rfl hpat_ne
    | cons a b => rfl
  | case2 c cs hc ih =>
    rw [litReplace, if_pos hc]
    rw [containsSeq_append_headFree pat p0 hp rep _ hpr]
    exact ih
  | case3 c cs hc ih =>
    have heq : litReplace pat rep (c :: cs) = c :: litReplace pat rep cs := by
      rw [litReplace, if_neg hc]
    rw [heq]
    simp only [containsSeq, Bool.or_eq_false_iff]
    constructor
    · cases hq : pat.isPrefixOf (c :: litReplace pat rep cs) with
      | false => rfl
      | true =>
        exfalso
        rcases litReplace_prefixTransfer pat rep r0 hr (c :: cs) pat
            (by rw [heq]; exact hq) with h3 | h3 | h3
        · exact hpat_ne h3
        · exact hc ⟨hpat_ne, h3⟩
        · exact hrp h3
    · exact ih

/-- `litReplace pat2 rep2` cannot create an occurrence of an unrelated
pattern `pat` that was absent, provided the pattern head does not occur in
the replacement and the replacement head does not occur in the pattern. -/
theorem litReplace_preserves (pat pat2 rep2 : List Char) (p0 r0 : Char)
    (hp : pat.head? = some p0) (hr : rep2.head? = some r0)
    (hrp : r0 ∉ pat) (hpr : p0 ∉ rep2) :
    ∀ l, containsSeq pat l = false →
      containsSeq pat (litReplace pat2 rep2 l) = false := by
  have hpat_ne : pat ≠ [] := by
    intro h; rw [h] at hp; simp at hp
  intro l
  induction l using litReplace.induct pat2 rep2 with
  | case1 =>
    intro h
    rw [litReplace]
    exact h
  | case2 c cs hc ih =>
    intro h
    rw [litReplace, if_pos hc]
    rw [containsSeq_append_headFree pat p0 hp rep2 _ hpr]
    exact ih (containsSeq_drop pat (c :: cs) pat2.length h)
  | case3 c cs hc ih =>
    intro h
    simp only [containsSeq, Bool.or_eq_false_iff] at h
    have heq : litReplace pat2 rep2 (c :: cs) =
        c :: litReplace pat2 rep2 cs := by
      rw [litReplace, if_neg hc]
    rw [heq]
    simp only [containsSeq, Bool.or_eq_false_iff]
    constructor
    · cases hq : pat.isPrefixOf (c :: litReplace pat2 rep2 cs) with
      | false => rfl
      | true =>
        exfalso
        rcases litReplace_prefixTransfer pat2 rep2 r0 hr (c :: cs) pat
            (by rw [heq]; exact hq) with h3 | h3 | h3
        · exact hpat_ne h3
        · simp [h.1] at h3
        · exact hrp h3
    · exact ih h.2

/-- `litReplace` is the identity on inputs without an occurrence. -/
theorem litReplace_id (pat rep : List Char) :
    ∀ l, containsSeq pat l = false → litReplace pat rep l = l := by
  intro l
  induction l using litReplace.induct pat rep with
  | case1 => intro _; rw [litReplace]
  | case2 c cs hc ih =>
    intro h
    exfalso
    simp only [containsSeq, Bool.or_eq_false_iff] at h
    rw [h.1] at hc
    simp at hc
  | case3 c cs hc ih =>
    intro h
    simp only [containsSeq, Bool.or_eq_false_iff] at h
    rw [litReplace, if_neg hc]
    rw [ih h.2]

/-- Unfolding equation for the matching branch of the parameterized
replacement. -/
theorem replaceContribParam_eq_hint (c : Char) (cs : List Char)
    (hc : contribMark.isPrefixOf (c :: cs) = true) (attrs rest : List Char)
    (h2 : takeAttrs (List.drop contribMark.length (c :: cs)) =
      some (attrs, rest)) (h3 : attrs ≠ []) :
    replaceContribParam (c :: cs) =
      contribHint attrs ++
        replaceContribParam (cs.drop (contribMark.length + attrs.length)) := by
  simp only [replaceContribParam, hc, h2]
  rw [if_pos h3]
  simp

/-- Unfolding equation for an empty capture (the regex requires at least
one attribute character, so the scan advances one position). -/
theorem replaceContribParam_eq_empty (c : Char) (cs : List Char)
    (hc : contribMark.isPrefixOf (c :: cs) = true) (rest : List Char)
    (h2 : takeAttrs (List.drop contribMark.length (c :: cs)) =
      some ([], rest)) :
    replaceContribParam (c :: cs) = c :: replaceContribParam cs := by
  simp only [replaceContribParam, hc, h2]
  simp

/-- Unfolding equation when no closing bracket follows the head. -/
theorem replaceContribParam_eq_none (c : Char) (cs : List Char)
    (hc : contribMark.isPrefixOf (c :: cs) = true)
    (h2 : takeAttrs (List.drop contribMark.length (c :: cs)) = none) :
    replaceContribParam (c :: cs) = c :: replaceContribParam cs := by
  simp only [replaceContribParam, hc, h2]
  simp

/-- Unfolding equation when the literal head does not match here. -/
theorem replaceContribParam_eq_nomatch (c : Char) (cs : List Char)
    (hc : ¬ contribMark.isPrefixOf (c :: cs) = true) :
    replaceContribParam (c :: cs) = c :: replaceContribParam cs := by
  rw [replaceContribParam, if_neg hc]

/-- A successful capture decomposes the scanned text as the attributes, the
closing bracket, and the remainder, with no closing bracket inside the
attributes. -/
theorem takeAttrs_eq :
    ∀ (t attrs rest : List Char), takeAttrs t = some (attrs, rest) →
      t = attrs ++ ']' :: rest ∧ ']' ∉ attrs := by
  intro t
  induction t with
  | nil => intro a r h; simp [takeAttrs] at h
  | cons x xs ih =>
    intro a r h
    by_cases hx : x = ']'
    · subst hx
      simp [takeAttrs] at h
      obtain ⟨h1, h2⟩ := h
      subst h1
      subst h2
      exact ⟨rfl, by simp⟩
    · cases hc : takeAttrs xs with
      | none => simp [takeAttrs, hx, hc] at h
      | some p =>
        obtain ⟨a2, r2⟩ := p
        simp [takeAttrs, hx, hc] at h
        obtain ⟨h1, h2⟩ := h
        obtain ⟨ih1, ih2⟩ := ih a2 r2 hc
        subst h1
        subst h2
        constructor
        · rw [ih1]
          simp
        · intro hm
          rcases List.mem_cons.mp hm with h5 | h5
          · exact hx h5.symm
          · exact ih2 h5

/-- The arithmetic resume point used in `replaceContribParam` coincides
with the remainder returned by `takeAttrs`: the definition resumes exactly
after the matched `[PRIOR:CONTRIBUTE <attrs>]`. -/
theorem takeAttrs_resume (c : Char) (cs attrs rest : List Char)
    (h2 : takeAttrs ((c :: cs).drop contribMark.length) =
      some (attrs, rest)) :
    cs.drop (contribMark.length + attrs.length) = rest := by
  obtain ⟨heq, -⟩ := takeAttrs_eq _ _ _ h2
  have h18 : contribMark.length = 18 := by decide
  rw [h18] at heq ⊢
  have hdrop : (c :: cs).drop 18 = cs.drop 17 := rfl
  rw [hdrop] at heq
  have hstep : cs.drop (18 + attrs.length) =
      (cs.drop 17).drop (attrs.length + 1) := by
    rw [List.drop_drop]
    congr 1
    omega
  rw [hstep, heq]
  have hsplit : attrs ++ ']' :: rest = (attrs ++ [']']) ++ rest := by simp
  have hlen2 : attrs.length + 1 = (attrs ++ [']']).length := by simp
  rw [hsplit, hlen2]
  exact List.drop_left _ _

/-- The replacement hint plus continuation, reassociated to expose its
fixed head, the raw attributes, and the closing characters. -/
theorem contribHint_shape (attrs w : List Char) :
    contribHint attrs ++ w =
      "`prior_contribute(".toList ++ (attrs ++ (')' :: btChar :: w)) := by
  show ("`prior_contribute(".toList ++ attrs ++ ")`".toList) ++ w = _
  rw [List.append_assoc, List.append_assoc]
  rfl

/-- The replacement hint starts with the backtick character. -/
theorem contribHint_cons (attrs w : List Char) :
    ∃ z, contribHint attrs ++ w = btChar :: z :=
  ⟨_, rfl⟩

/-- A pattern containing a closing bracket but no closing parenthesis
cannot begin inside bracket-free attribute text followed by a closing
parenthesis. -/
theorem isPrefixOf_attrs_false :
    ∀ (pat attrs y2 : List Char), ']' ∈ pat → ')' ∉ pat → ']' ∉ attrs →
      pat.isPrefixOf (attrs ++ ')' :: y2) = false := by
  intro pat
  induction pat with
  | nil => intro attrs y2 h1 _ _; simp at h1
  | cons p0 pt ih =>
    intro attrs y2 h1 h2 h3
    cases attrs with
    | nil =>
      have hne : (p0 == ')') = false := by
        rw [beq_eq_false_iff_ne]
        intro he
        exact h2 (he ▸ List.mem_cons_self p0 pt)
      show (p0 == ')' && pt.isPrefixOf y2) = false
      rw [hne]
      simp
    | cons a attrs2 =>
      show (p0 == a && pt.isPrefixOf (attrs2 ++ ')' :: y2)) = false
      by_cases hpa : p0 = a
      · subst hpa
        have hp0 : p0 ≠ ']' := by
          intro he
          exact h3 (he ▸ List.mem_cons_self p0 attrs2)
        have h1b : ']' ∈ pt := by
          rcases List.mem_cons.mp h1 with h5 | h5
          · exact absurd h5.symm hp0
          · exact h5
        have h2b : ')' ∉ pt := fun hm => h2 (List.mem_cons_of_mem _ hm)
        have h3b : ']' ∉ attrs2 := fun hm => h3 (List.mem_cons_of_mem _ hm)
        rw [ih attrs2 y2 h1b h2b h3b]
        simp
      · have hne : (p0 == a) = false := by
          rw [beq_eq_false_iff_ne]; exact hpa
        rw [hne]
        simp

/-- Occurrence search skips bracket-free attribute text that is followed by
a closing parenthesis, for patterns containing a closing bracket but no
closing parenthesis. -/
theorem containsSeq_attrs (pat : List Char) (h1 : ']' ∈ pat)
    (h2 : ')' ∉ pat) :
    ∀ (attrs y2 : List Char), ']' ∉ attrs →
      containsSeq pat (attrs ++ ')' :: y2) =
        containsSeq pat (')' :: y2) := by
  intro attrs
  induction attrs with
  | nil => intro y2 _; rfl
  | cons a attrs2 ih =>
    intro y2 h3
    have h3b : ']' ∉ attrs2 := fun hm => h3 (List.mem_cons_of_mem _ hm)
    have hpre := isPrefixOf_attrs_false pat (a :: attrs2) y2 h1 h2 h3
    show (pat.isPrefixOf ((a :: attrs2) ++ ')' :: y2) ||
        containsSeq pat (attrs2 ++ ')' :: y2)) = containsSeq pat (')' :: y2)
    rw [hpre, Bool.false_or]
    exact ih y2 h3b

/-- Transfer step for a prefix of `c :: out` where prefixes of `out` are
understood. -/
theorem isPrefixOf_cons_step (c : Char) (cs out : List Char)
    (k : List Char) (r0 : Char)
    (ih : ∀ k2, k2.isPrefixOf out = true →
      k2 = [] ∨ k2.isPrefixOf cs = true ∨ r0 ∈ k2)
    (h : k.isPrefixOf (c :: out) = true) :
    k = [] ∨ k.isPrefixOf (c :: cs) = true ∨ r0 ∈ k := by
  cases k with
  | nil => exact Or.inl rfl
  | cons k0 k2 =>
    simp only [List.isPrefixOf, Bool.and_eq_true, beq_iff_eq] at h
    obtain ⟨rfl, hb⟩ := h
    rcases ih k2 hb with h3 | h3 | h3
    · subst h3
      right; left
      simp [List.isPrefixOf]
    · right; left
      simp [List.isPrefixOf, h3]
    · right; right
      exact List.mem_cons_of_mem _ h3

/-- A prefix of a `replaceContribParam` output is empty, a prefix of the
input, or contains the backtick character. -/
theorem replaceContribParam_prefixTransfer :
    ∀ l k, k.isPrefixOf (replaceContribParam l) = true →
      k = [] ∨ k.isPrefixOf l = true ∨ btChar ∈ k := by
  intro l
  induction l using replaceContribParam.induct with
  | case1 =>
    intro k h
    simp only [replaceContribParam] at h
    cases k with
    | nil => exact Or.inl rfl
    | cons k0 k2 => simp [List.isPrefixOf] at h
  | case2 c cs hc attrs rest h2 h3 ih =>
    intro k h
    rw [replaceContribParam_eq_hint c cs hc attrs rest h2 h3] at h
    cases k with
    | nil => exact Or.inl rfl
    | cons k0 k2 =>
      right; right
      obtain ⟨z, hz⟩ := contribHint_cons attrs
        (replaceContribParam (cs.drop (contribMark.length + attrs.length)))
      rw [hz] at h
      simp only [List.isPrefixOf, Bool.and_eq_true, beq_iff_eq] at h
      rw [h.1]
      exact List.mem_cons_self _ _
  | case3 c cs hc attrs rest h2 h3 ih =>
    intro k h
    have hattr : attrs = [] := not_not.mp h3
    subst hattr
    rw [replaceContribParam_eq_empty c cs hc rest h2] at h
    exact isPrefixOf_cons_step c cs (replaceContribParam cs) k btChar ih h
  | case4 c cs hc h2 ih =>
    intro k h
    rw [replaceContribParam_eq_none c cs hc h2] at h
    exact isPrefixOf_cons_step c cs (replaceContribParam cs) k btChar ih h
  | case5 c cs hc ih =>
    intro k h
    rw [replaceContribParam_eq_nomatch c cs hc] at h
    exact isPrefixOf_cons_step c cs (replaceContribParam cs) k btChar ih h

/-- Step case shared by the preservation proof: scanning past one
unmatched character. -/
theorem containsSeq_rcp_cons_step (pat : List Char) (hpat_ne : pat ≠ [])
    (hbt : btChar ∉ pat) (c : Char) (cs : List Char)
    (heq : replaceContribParam (c :: cs) = c :: replaceContribParam cs)
    (h1 : pat.isPrefixOf (c :: cs) = false)
    (h2 : containsSeq pat (replaceContribParam cs) = false) :
    containsSeq pat (replaceContribParam (c :: cs)) = false := by
  rw [heq]
  simp only [containsSeq, Bool.or_eq_false_iff]
  refine ⟨?_, h2⟩
  cases hq : pat.isPrefixOf (c :: replaceContribParam cs) with
  | false => rfl
  | true =>
    exfalso
    have hq2 : pat.isPrefixOf (replaceContribParam (c :: cs)) = true := by
      rw [heq]; exact hq
    rcases replaceContribParam_prefixTransfer (c :: cs) pat hq2 with h3 | h3 | h3
    · exact hpat_ne h3
    · simp [h1] at h3
    · exact hbt h3

/-- The parameterized replacement cannot create an occurrence of a fixed
token that was absent: such a token starts with an opening bracket, ends
with a closing bracket, and contains neither a backtick nor a closing
parenthesis, so it can neither start inside the emitted hint nor span the
spliced attribute text. -/
theorem replaceContribParam_preserves (pat : List Char) (p0 : Char)
    (hp : pat.head? = some p0)
    (hbt : btChar ∉ pat) (hbr : ']' ∈ pat) (hpr : ')' ∉ pat)
    (hph : p0 ∉ "`prior_contribute(".toList) :
    ∀ l, containsSeq pat l = false →
      containsSeq pat (replaceContribParam l) = false := by
  have hpat_ne : pat ≠ [] := by
    intro h; rw [h] at hp; simp at hp
  have hmem : p0 ∈ pat := by
    cases pat with
    | nil => simp at hp
    | cons a b =>
      have : a = p0 := by simpa using hp
      rw [← this]
      exact List.mem_cons_self a b
  have hne1 : p0 ≠ ')' := fun he => hpr (he ▸ hmem)
  have hne2 : p0 ≠ btChar := fun he => hbt (he ▸ hmem)
  intro l
  induction l using replaceContribParam.induct with
  | case1 =>
    intro h
    simp only [replaceContribParam]
    exact h
  | case2 c cs hc attrs rest h2 h3 ih =>
    intro h
    simp only [containsSeq, Bool.or_eq_false_iff] at h
    rw [replaceContribParam_eq_hint c cs hc attrs rest h2 h3]
    rw [contribHint_shape]
    rw [containsSeq_append_headFree pat p0 hp _ _ hph]
    obtain ⟨-, hna⟩ := takeAttrs_eq _ _ _ h2
    rw [containsSeq_attrs pat hbr hpr attrs _ hna]
    have hdrop : containsSeq pat
        (cs.drop (contribMark.length + attrs.length)) = false :=
      containsSeq_drop pat cs _ h.2
    have hrec := ih hdrop
    show (pat.isPrefixOf (')' :: btChar :: replaceContribParam
        (cs.drop (contribMark.length + attrs.length))) ||
      (pat.isPrefixOf (btChar :: replaceContribParam
        (cs.drop (contribMark.length + attrs.length))) ||
       containsSeq pat (replaceContribParam
        (cs.drop (contribMark.length + attrs.length))))) = false
    rw [isPrefixOf_false_of_head_ne pat p0 hp (')')
      (btChar :: replaceContribParam
        (cs.drop (contribMark.length + attrs.length))) hne1]
    rw [isPrefixOf_false_of_head_ne pat p0 hp btChar
      (replaceContribParam
        (cs.drop (contribMark.length + attrs.length))) hne2]
    rw [hrec]
    rfl
  | case3 c cs hc attrs rest h2 h3 ih =>
    intro h
    simp only [containsSeq, Bool.or_eq_false_iff] at h
    have hattr : attrs = [] := not_not.mp h3
    subst hattr
    exact containsSeq_rcp_cons_step pat hpat_ne hbt c cs
      (replaceContribParam_eq_empty c cs hc rest h2) h.1 (ih h.2)
  | case4 c cs hc h2 ih =>
    intro h
    simp only [containsSeq, Bool.or_eq_false_iff] at h
    exact containsSeq_rcp_cons_step pat hpat_ne hbt c cs
      (replaceContribParam_eq_none c cs hc h2) h.1 (ih h.2)
  | case5 c cs hc ih =>
    intro h
    simp only [containsSeq, Bool.or_eq_false_iff] at h
    exact containsSeq_rcp_cons_step pat hpat_ne hbt c cs
      (replaceContribParam_eq_nomatch c cs hc) h.1 (ih h.2)

/-- The parameterized replacement is the identity on inputs without a
parameterized token. -/
theorem replaceContribParam_id :
    ∀ l, containsParamTok l = false → replaceContribParam l = l := by
  intro l
  induction l using replaceContribParam.induct with
  | case1 => intro _; simp only [replaceContribParam]
  | case2 c cs hc attrs rest h2 h3 ih =>
    intro h
    exfalso
    simp only [containsParamTok, Bool.or_eq_false_iff] at h
    have hmatch : paramMatchAt (c :: cs) = true := by
      simp only [paramMatchAt, hc, h2]
      simp [h3]
    simp [hmatch] at h
  | case3 c cs hc attrs rest h2 h3 ih =>
    intro h
    simp only [containsParamTok, Bool.or_eq_false_iff] at h
    have hattr : attrs = [] := not_not.mp h3
    subst hattr
    rw [replaceContribParam_eq_empty c cs hc rest h2, ih h.2]
  | case4 c cs hc h2 ih =>
    intro h
    simp only [containsParamTok, Bool.or_eq_false_iff] at h
    rw [replaceContribParam_eq_none c cs hc h2, ih h.2]
  | case5 c cs hc ih =>
    intro h
    simp only [containsParamTok, Bool.or_eq_false_iff] at h
    rw [replaceContribParam_eq_nomatch c cs hc, ih h.2]

/-- Claim C3 (amended): `expandNudgeTokens` is total over strings; every
occurrence of each of the six fixed vocabulary tokens is replaced, and no
occurrence of any fixed token remains in the output, whatever the input;
the parameterized contribute token is replaced in a single left-to-right
pass, but when the captured attribute text itself contains the start of
another parameterized token the splice can leave text matching the
parameterized pattern in the output (see the counterexample); the function
is the identity on the empty string and on any input containing no
vocabulary token, so unrelated bracketed text in such inputs is preserved
verbatim. -/
theorem c3_expandNudgeTokens :
    (∀ pat ∈ fixedTokens, ∀ l : List Char,
      containsSeq pat (expandNudgeTokensL l) = false) ∧
    (∀ s : String, noVocabTokens s.toList = true →
      expandNudgeTokens s = s) ∧
    expandNudgeTokens "" = "" := by
  have hid : ∀ s : String, noVocabTokens s.toList = true →
      expandNudgeTokens s = s := by
    intro s h
    simp only [noVocabTokens, fixedTokens, List.all_cons, List.all_nil,
      Bool.and_eq_true, Bool.not_eq_true'] at h
    obtain ⟨⟨h1, h2, h3, h4, h5, h6, -⟩, h7⟩ := h
    show String.mk (expandNudgeTokensL s.toList) = s
    simp only [expandNudgeTokensL]
    rw [litReplace_id tokContribute repContribute s.toList h1]
    rw [litReplace_id tokFbUseful repFbUseful s.toList h2]
    rw [litReplace_id tokFbNotUseful repFbNotUseful s.toList h3]
    rw [litReplace_id tokFbIrrelevant repFbIrrelevant s.toList h4]
    rw [litReplace_id tokFeedback repFeedback s.toList h5]
    rw [litReplace_id tokStatus repStatus s.toList h6]
    rw [replaceContribParam_id s.toList h7]
    cases s
    rfl
  refine ⟨?_, hid, hid "" (by decide)⟩
  · intro pat hpat l
    simp only [fixedTokens, List.mem_cons, List.not_mem_nil, or_false] at hpat
    simp only [expandNudgeTokensL]
    rcases hpat with rfl | rfl | rfl | rfl | rfl | rfl
    · have e1 := litReplace_eliminates tokContribute repContribute
        '[' btChar (by decide) (by decide) (by decide) (by decide) l
      have e2 := litReplace_preserves tokContribute tokFbUseful repFbUseful
        '[' btChar (by decide) (by decide) (by decide) (by decide) _ e1
      have e3 := litReplace_preserves tokContribute tokFbNotUseful
        repFbNotUseful '[' btChar (by decide) (by decide) (by decide)
        (by decide) _ e2
      have e4 := litReplace_preserves tokContribute tokFbIrrelevant
        repFbIrrelevant '[' btChar (by decide) (by decide) (by decide)
        (by decide) _ e3
      have e5 := litReplace_preserves tokContribute tokFeedback repFeedback
        '[' btChar (by decide) (by decide) (by decide) (by decide) _ e4
      have e6 := litReplace_preserves tokContribute tokStatus repStatus
        '[' btChar (by decide) (by decide) (by decide) (by decide) _ e5
      exact replaceContribParam_preserves tokContribute '[' (by decide)
        (by decide) (by decide) (by decide) (by decide) _ e6
    · have e2 := litReplace_eliminates tokFbUseful repFbUseful
        '[' btChar (by decide) (by decide) (by decide) (by decide)
        (litReplace tokContribute repContribute l)
      have e3 := litReplace_preserves tokFbUseful tokFbNotUseful
        repFbNotUseful '[' btChar (by decide) (by decide) (by decide)
        (by decide) _ e2
      have e4 := litReplace_preserves tokFbUseful tokFbIrrelevant
        repFbIrrelevant '[' btChar (by decide) (by decide) (by decide)
        (by decide) _ e3
      have e5 := litReplace_preserves tokFbUseful tokFeedback repFeedback
        '[' btChar (by decide) (by decide) (by decide) (by decide) _ e4
      have e6 := litReplace_preserves tokFbUseful tokStatus repStatus
        '[' btChar (by decide) (by decide) (by decide) (by decide) _ e5
      exact replaceContribParam_preserves tokFbUseful '[' (by decide)
        (by decide) (by decide) (by decide) (by decide) _ e6
    · have e3 := litReplace_eliminates tokFbNotUseful repFbNotUseful
        '[' btChar (by decide) (by decide) (by decide) (by decide)
        (litReplace tokFbUseful repFbUseful
          (litReplace tokContribute repContribute l))
      have e4 := litReplace_preserves tokFbNotUseful tokFbIrrelevant
        repFbIrrelevant '[' btChar (by decide) (by decide) (by decide)
        (by decide) _ e3
      have e5 := litReplace_preserves tokFbNotUseful tokFeedback repFeedback
        '[' btChar (by decide) (by decide) (by decide) (by decide) _ e4
      have e6 := litReplace_preserves tokFbNotUseful tokStatus repStatus
        '[' btChar (by decide) (by decide) (by decide) (by decide) _ e5
      exact replaceContribParam_preserves tokFbNotUseful '[' (by decide)
        (by decide) (by decide) (by decide) (by decide) _ e6
    · have e4 := litReplace_eliminates tokFbIrrelevant repFbIrrelevant
        '[' btChar (by decide) (by decide) (by decide) (by decide)
        (litReplace tokFbNotUseful repFbNotUseful
          (litReplace tokFbUseful repFbUseful
            (litReplace tokContribute repContribute l)))
      have e5 := litReplace_preserves tokFbIrrelevant tokFeedback
        repFeedback '[' btChar (by decide) (by decide) (by decide)
        (by decide) _ e4
      have e6 := litReplace_preserves tokFbIrrelevant tokStatus repStatus
        '[' btChar (by decide) (by decide) (by decide) (by decide) _ e5
      exact replaceContribParam_preserves tokFbIrrelevant '[' (by decide)
        (by decide) (by decide) (by decide) (by decide) _ e6
    · have e5 := litReplace_eliminates tokFeedback repFeedback
        '[' btChar (by decide) (by decide) (by decide) (by decide)
        (litReplace tokFbIrrelevant repFbIrrelevant
          (litReplace tokFbNotUseful repFbNotUseful
            (litReplace tokFbUseful repFbUseful
              (litReplace tokContribute repContribute l))))
      have e6 := litReplace_preserves tokFeedback tokStatus repStatus
        '[' btChar (by decide) (by decide) (by decide) (by decide) _ e5
      exact replaceContribParam_preserves tokFeedback '[' (by decide)
        (by decide) (by decide) (by decide) (by decide) _ e6
    · have e6 := litReplace_eliminates tokStatus repStatus
        '[' btChar (by decide) (by decide) (by decide) (by decide)
        (litReplace tokFeedback repFeedback
          (litReplace tokFbIrrelevant repFbIrrelevant
            (litReplace tokFbNotUseful repFbNotUseful
              (litReplace tokFbUseful repFbUseful
                (litReplace tokContribute repContribute l)))))
      exact replaceContribParam_preserves tokStatus '[' (by decide)
        (by decide) (by decide) (by decide) (by decide) _ e6
/-- Witness for C3: a token-free message is returned verbatim, and a
message containing a status token has no status token in its expansion. -/
theorem c3_expandNudgeTokens_witness :
    noVocabTokens ("hello [world]".toList) = true ∧
    expandNudgeTokens "hello [world]" = "hello [world]" ∧
    containsSeq tokStatus
      (expandNudgeTokensL ("x [PRIOR:STATUS] y".toList)) = false :=
  ⟨by decide,
   c3_expandNudgeTokens.2.1 "hello [world]" (by decide),
   c3_expandNudgeTokens.1 tokStatus (by decide) ("x [PRIOR:STATUS] y".toList)⟩

set_option maxHeartbeats 4000000 in
/-- Counterexample to C3 as stated: nesting one parameterized contribute
token inside the attribute text of another makes the single-pass greedy
regex splice the inner token text into the hint, and the output still
contains text matching the parameterized vocabulary pattern. -/
theorem c3_expandNudgeTokens_counterexample :
    expandNudgeTokens "[PRIOR:CONTRIBUTE [PRIOR:CONTRIBUTE x] y]" =
      "`prior_contribute([PRIOR:CONTRIBUTE x)` y]" ∧
    containsParamTok
      ("`prior_contribute([PRIOR:CONTRIBUTE x)` y]".toList) = true := by
  constructor
  · simp [expandNudgeTokens, expandNudgeTokensL, litReplace,
      replaceContribParam, takeAttrs, contribMark, contribHint,
      tokContribute, repContribute, tokFbUseful, repFbUseful,
      tokFbNotUseful, repFbNotUseful, tokFbIrrelevant, repFbIrrelevant,
      tokFeedback, repFeedback, tokStatus, repStatus,
      List.isPrefixOf, List.drop]
  · decide

end Prior



